import Mathlib

/-!
Shallow embedding of `honeypipe.py` (HoneyPipe core) and verification of
its specification claims.

The source is a small combinator library over a shared mutable `dict`:

* `Step` wraps a callable `f(d)`; `Step.__call__(d)` runs `self.f(d)`,
  discards the result and returns the same dict `d`.
* `step1 >> step2` (`Step.__rshift__`) re-wraps the right operand via
  `Step(other)` and returns `Step(lambda d: (self(d), other(d))[1])`.
* `data >> step` (`Step.__rrshift__`) is `self(data)`.
* `_condition(pred)` wraps a plain callable: if the predicate is false the
  wrapper returns `None` without calling the function.
* `conditional_func(pred, store_return_as=...)` inspects the wrapped
  function's POSITIONAL_OR_KEYWORD / KEYWORD_ONLY parameter names, calls it
  with `func(**{k: d[k] for k in needed if k in d})` when the predicate
  holds, and stores the return value when `store_return_as` is truthy.
* `conditional_proc(pred)` gates a whole-dict procedure.

Python dicts are modelled as association lists with unique keys kept in
insertion order (`Ctx`); in-place mutation becomes a `Ctx → Ctx` content
transformer; exceptions become an `Except` channel that carries the
mutations already performed (Python does not roll back on raise); every
invocation of a user function is recorded in a trace so that claims about
"called exactly once" are statable.  Dict identity (the claims about
returning the *same instance*) is modelled by a heap indexed by addresses:
a callable mutates the contents stored at the dict's address and
`Step.__call__` returns the address it was given, exactly as `return d`
returns the reference it received.
-/

namespace HoneyPipe

/-- Python runtime values stored in the context dict (enough structure for
the claims; values are opaque payloads to the pipeline core). -/
inductive Value where
  | vInt : Int → Value
  | vStr : String → Value
  | vBool : Bool → Value
  | vNone : Value
  deriving DecidableEq, Repr, Inhabited

/-- Python exceptions, by message. -/
abbrev PyErr := String

/-- The shared mutable context: a string-keyed dict, as an association list
in insertion order. -/
abbrev Ctx := List (String × Value)

/-- Dict key lookup: `d[k]` / `k in d` combined. -/
def Ctx.lookup : Ctx → String → Option Value
  | [], _ => none
  | (k, v) :: rest, key => if k = key then some v else Ctx.lookup rest key

/-- Dict assignment `d[key] = val`: replaces in place when the key exists
(keeping its position), appends otherwise — Python dict semantics. -/
def Ctx.set : Ctx → String → Value → Ctx
  | [], key, val => [(key, val)]
  | (k, v) :: rest, key, val =>
      if k = key then (k, val) :: rest else (k, v) :: Ctx.set rest key val

/-- A plain Python callable taking the dict as its sole argument.  Running
it yields the mutated dict contents, either a return value or a raised
exception (the mutations performed before the raise are retained), and a
trace of the user-function invocations that happened inside. -/
structure PyProc where
  name : String
  run : Ctx → Ctx × Except PyErr Value × List String

/-- A user-written leaf procedure: mutates the dict by `eff`, then either
returns or raises by `ret`; each run is one recorded invocation. -/
def PyProc.atomic (name : String) (eff : Ctx → Ctx)
    (ret : Ctx → Except PyErr Value) : PyProc :=
  ⟨name, fun d => let d' := eff d; (d', ret d', [name])⟩

/-- A predicate on the context.  It may raise (`predicate(d)` is arbitrary
Python) but, per the spec's data model, does not mutate the context. -/
abbrev Pred := Ctx → Except PyErr Bool

/-- The gate `_condition(predicate)` applied to a sync callable: if the
predicate is true the wrapped function runs and its result is forwarded;
if it is false the wrapper just returns `None`. -/
def condGate (predicate : Pred) (func : PyProc) : PyProc :=
  { name := func.name
    run := fun d =>
      match predicate d with
      | .error e => (d, .error e, [])
      | .ok false => (d, .ok Value.vNone, [])
      | .ok true => func.run d }

/-- The body a `Step` wraps.  In the source this is any callable: a plain
function (`prim`), an existing `Step` used as a callable — produced by the
unconditional `other = Step(other)` re-wrap in `__rshift__` (`ofStep`) —
or the composition lambda `lambda d: (self(d), other(d))[1]` (`seqLam`),
whose children are the bodies of the two `Step`s it closes over. -/
inductive Fn where
  | prim : PyProc → Fn
  | ofStep : Fn → Fn
  | seqLam : Fn → Fn → Fn

/-- `class Step`: wraps a callable `f`. -/
structure Step where
  f : Fn

/-- Return-value channel of a callable: an ordinary Python value, or the
context dict itself (what a `Step.__call__` or the composition lambda
returns). -/
inductive RetV where
  | val : Value → RetV
  | theDict : RetV

/-- Run a wrapped callable against the context.  `prim` runs the plain
function; `ofStep f` is a `Step` whose body is `f` used as a callable:
`Step.__call__` runs `self.f(d)`, discards its result and returns the dict;
`seqLam l r` is `lambda d: (self(d), other(d))[1]`: run the left step, and
if it raised propagate (the right step never runs); otherwise run the right
step and return the dict. -/
def runFn : Fn → Ctx → Ctx × Except PyErr RetV × List String
  | .prim p, c =>
      let (c', r, t) := p.run c
      (c', r.map RetV.val, t)
  | .ofStep f, c =>
      let (c', r, t) := runFn f c
      (c', r.map fun _ => RetV.theDict, t)
  | .seqLam l r, c =>
      let (c1, e1, t1) := runFn l c
      match e1 with
      | .error e => (c1, .error e, t1)
      | .ok _ =>
          let (c2, e2, t2) := runFn r c1
          (c2, (match e2 with
                | .error e => Except.error e
                | .ok _ => Except.ok RetV.theDict), t1 ++ t2)

/-- `Step.__call__(d)`: run the wrapped callable for its side effect,
discard whatever it returned, and hand back the dict. -/
def Step.call (s : Step) (c : Ctx) : Ctx × Except PyErr Unit × List String :=
  let (c', r, t) := runFn s.f c
  (c', r.map fun _ => (), t)

/-- An argument acceptable to the `Step` constructor and to `>>`: a plain
callable or an existing `Step`. -/
inductive PyCallable where
  | raw : PyProc → PyCallable
  | step : Step → PyCallable

/-- `Step(x)`: store the callable as `self.f`.  When `x` is already a
`Step`, the stored callable is that step itself. -/
def Step.new : PyCallable → Step
  | .raw p => ⟨.prim p⟩
  | .step s => ⟨.ofStep s.f⟩

/-- `Step.__rshift__`: `other = Step(other)`, then
`Step(lambda d: (self(d), other(d))[1])`. -/
def Step.rshift (s : Step) (other : PyCallable) : Step :=
  ⟨.seqLam s.f (Step.new other).f⟩

/-- Composition of two existing steps, `a >> b`. -/
def composeSteps (a b : Step) : Step :=
  Step.rshift a (.step b)

/-- Pipeline entry `data >> step` (`Step.__rrshift__`): just `self(data)`. -/
def rrshift (c : Ctx) (s : Step) : Ctx × Except PyErr Unit × List String :=
  s.call c

/-- A heap mapping dict addresses to dict contents, for stating identity
(same-instance) claims. -/
abbrev Heap := Nat → Ctx

/-- `Step.__call__` at the reference level: the callable mutates the
contents stored at the dict's address, and `return d` returns the address
the method received. -/
def Step.callRef (s : Step) (addr : Nat) (heap : Heap) :
    Nat × Heap × Except PyErr Unit × List String :=
  let (c', e, t) := s.call (heap addr)
  (addr, Function.update heap addr c', e, t)

/-- Pipeline entry `data >> step` at the reference level. -/
def rrshiftRef (addr : Nat) (heap : Heap) (s : Step) :
    Nat × Heap × Except PyErr Unit × List String :=
  s.callRef addr heap

/-- The kind of a declared Python parameter, as reported by
`inspect.signature`. -/
inductive ParamKind where
  | positionalOrKeyword
  | keywordOnly
  | varPositional
  | varKeyword
  deriving DecidableEq, Repr

/-- A declared parameter of a Python function: name, kind, and optional
default value. -/
structure PyParam where
  name : String
  kind : ParamKind
  default : Option Value

/-- A value-producing Python function as wrapped by `conditional_func`:
its declared signature and a body that receives the bound arguments and
either returns a value or raises. -/
structure PyFunc where
  name : String
  params : List PyParam
  body : List (String × Value) → Except PyErr Value

/-- `needed`: the names of the POSITIONAL_OR_KEYWORD and KEYWORD_ONLY
parameters, captured at decoration time. -/
def neededParams (func : PyFunc) : List String :=
  (func.params.filter fun p =>
      p.kind = ParamKind.positionalOrKeyword ∨ p.kind = ParamKind.keywordOnly).map
    (fun p => p.name)

/-- The dict comprehension `{k: d[k] for k in needed if k in d}`. -/
def selectKwargs (func : PyFunc) (d : Ctx) : List (String × Value) :=
  (neededParams func).filterMap fun k => (Ctx.lookup d k).map fun v => (k, v)

/-- Resolution of one declared parameter against the keyword arguments of a
call `func(**kwargs)`: variadic parameters collect nothing here, a named
parameter takes the keyword value when supplied, else its default, else the
call raises a missing-argument `TypeError`. -/
def resolveParam (p : PyParam) (kwargs : List (String × Value)) :
    Except PyErr (Option (String × Value)) :=
  if p.kind = ParamKind.varPositional ∨ p.kind = ParamKind.varKeyword then
    .ok none
  else
    match Ctx.lookup kwargs p.name with
    | some v => .ok (some (p.name, v))
    | none =>
        match p.default with
        | some dv => .ok (some (p.name, dv))
        | none => .error ("missing a required argument: " ++ p.name)

/-- Argument binding for `func(**kwargs)`: resolve each declared parameter
in order; the first unresolvable required parameter raises. -/
def bindParams : List PyParam → List (String × Value) →
    Except PyErr (List (String × Value))
  | [], _ => .ok []
  | p :: rest, kwargs =>
      match resolveParam p kwargs with
      | .error e => .error e
      | .ok none => bindParams rest kwargs
      | .ok (some b) => (bindParams rest kwargs).map fun tail => b :: tail

/-- The call `func(**kwargs)`: binding happens at the call boundary (a
binding failure raises before the body runs, so no invocation is recorded);
a successful binding runs the body, recording one invocation. -/
def callPyFunc (func : PyFunc) (kwargs : List (String × Value)) :
    Except PyErr Value × List String :=
  match bindParams func.params kwargs with
  | .error e => (.error e, [])
  | .ok bound => (func.body bound, [func.name])

/-- Python truthiness of the `store_return_as : str | None` option:
`None` and the empty string are falsy. -/
def strTruthy : Option String → Bool
  | none => false
  | some s => s ≠ ""

/-- `sync_gate` from `conditional_func`: when the predicate holds, call the
function on the context fields matching its declared parameter names, and
store the return value when `store_return_as` is truthy; otherwise do
nothing and return `None`. -/
def sync_gate (predicate : Pred) (store_return_as : Option String)
    (func : PyFunc) : PyProc :=
  { name := func.name
    run := fun d =>
      match predicate d with
      | .error e => (d, .error e, [])
      | .ok false => (d, .ok Value.vNone, [])
      | .ok true =>
          match callPyFunc func (selectKwargs func d) with
          | (.error e, t) => (d, .error e, t)
          | (.ok rv, t) =>
              match store_return_as with
              | some key =>
                  if key = "" then (d, .ok Value.vNone, t)
                  else (Ctx.set d key rv, .ok Value.vNone, t)
              | none => (d, .ok Value.vNone, t) }

/-- The default predicate of `conditional_func`: `lambda d: True`. -/
def defaultPredicate : Pred := fun _ => .ok true

/-- `conditional_func(predicate, store_return_as=...)` applied to a sync
function: wrap the gate in a `Step`. -/
def conditional_func (predicate : Pred) (store_return_as : Option String)
    (func : PyFunc) : Step :=
  ⟨.prim (sync_gate predicate store_return_as func)⟩

/-- The `gated` wrapper of `conditional_proc`: run the whole-dict procedure
when the predicate holds; its return value is not forwarded (the wrapper
body has no `return`), but an exception it raises propagates together with
the mutations already performed. -/
def gatedProc (predicate : Pred) (func : PyProc) : PyProc :=
  { name := func.name
    run := fun d =>
      match predicate d with
      | .error e => (d, .error e, [])
      | .ok false => (d, .ok Value.vNone, [])
      | .ok true =>
          let (d', r, t) := func.run d
          (d', (match r with
                | .error e => Except.error e
                | .ok _ => Except.ok Value.vNone), t) }

/-- `conditional_proc(predicate)` applied to a sync procedure: wrap the
gated procedure in a `Step`. -/
def conditional_proc (predicate : Pred) (func : PyProc) : Step :=
  ⟨.prim (gatedProc predicate func)⟩

/-! ### Concrete instances used by witnesses and counterexamples -/

/-- A procedure writing `x := 3`. -/
def exSetX : PyProc :=
  PyProc.atomic "setx" (fun d => Ctx.set d "x" (Value.vInt 3)) (fun _ => .ok Value.vNone)

/-- A procedure that writes `b := 1` and then raises. -/
def exBoom : PyProc :=
  PyProc.atomic "boom" (fun d => Ctx.set d "b" (Value.vInt 1)) (fun _ => .error "boom")

/-- The spec's example: `hyp(x, y)` (kept on integers: `x*x + y*y`). -/
def exHyp : PyFunc :=
  { name := "hyp"
    params := [⟨"x", .positionalOrKeyword, none⟩, ⟨"y", .positionalOrKeyword, none⟩]
    body := fun bound =>
      match Ctx.lookup bound "x", Ctx.lookup bound "y" with
      | some (Value.vInt a), some (Value.vInt b) => .ok (Value.vInt (a * a + b * b))
      | _, _ => .error "type error" }

/-- A parameterless function returning `42`. -/
def exConst : PyFunc :=
  { name := "konst", params := [], body := fun _ => .ok (Value.vInt 42) }

/-- A parameterless function returning `None`. -/
def exNoneF : PyFunc :=
  { name := "nonef", params := [], body := fun _ => .ok Value.vNone }

/-- A predicate that is false on the empty context: `d.get("go")` is truthy. -/
def exPredGo : Pred := fun d => .ok (Ctx.lookup d "go" = some (Value.vBool true))

/-! ### Helper lemmas -/

/-- A key absent from the dict is absent from the selected kwargs. -/
theorem lookup_filterMap_eq_none (names : List String) (d : Ctx) (k : String)
    (h : Ctx.lookup d k = none) :
    Ctx.lookup (names.filterMap fun n => (Ctx.lookup d n).map fun v => (n, v)) k
      = none := by
  induction names with
  | nil => rfl
  | cons n rest ih =>
      simp only [List.filterMap_cons]
      cases hn : Ctx.lookup d n with
      | none => exact ih
      | some v =>
          simp only [Option.map_some']
          show Ctx.lookup ((n, v) :: _) k = none
          unfold Ctx.lookup
          split
          · next heq => rw [heq] at hn; rw [hn] at h; cases h
          · exact ih

/-- Membership in the selected kwargs is exactly: a needed name holding
that value in the context. -/
theorem mem_selectKwargs (func : PyFunc) (d : Ctx) (k : String) (v : Value) :
    (k, v) ∈ selectKwargs func d ↔
      k ∈ neededParams func ∧ Ctx.lookup d k = some v := by
  simp only [selectKwargs, List.mem_filterMap, Option.map_eq_some']
  constructor
  · rintro ⟨a, ha, x, hx, hax⟩
    cases hax
    exact ⟨ha, hx⟩
  · rintro ⟨hk, hv⟩
    exact ⟨k, hk, v, hv, rfl⟩

/-- Needed names are exactly the names of the POSITIONAL_OR_KEYWORD and
KEYWORD_ONLY parameters. -/
theorem mem_neededParams (func : PyFunc) (k : String) :
    k ∈ neededParams func ↔
      ∃ p, p ∈ func.params ∧
        (p.kind = ParamKind.positionalOrKeyword ∨ p.kind = ParamKind.keywordOnly) ∧
        p.name = k := by
  simp only [neededParams, List.mem_map, List.mem_filter, decide_eq_true_eq]
  constructor
  · rintro ⟨p, ⟨hp, hkind⟩, hname⟩
    exact ⟨p, hp, hkind, hname⟩
  · rintro ⟨p, hp, hkind, hname⟩
    exact ⟨p, ⟨hp, hkind⟩, hname⟩

/-- A required parameter absent from the kwargs makes the binding raise. -/
theorem resolveParam_missing (p : PyParam) (kwargs : List (String × Value))
    (hkind : ¬(p.kind = ParamKind.varPositional ∨ p.kind = ParamKind.varKeyword))
    (habs : Ctx.lookup kwargs p.name = none) (hdef : p.default = none) :
    resolveParam p kwargs = .error ("missing a required argument: " ++ p.name) := by
  simp [resolveParam, hkind, habs, hdef]

/-- If some declared parameter fails to resolve, the whole binding raises. -/
theorem bindParams_error_of_mem (params : List PyParam)
    (kwargs : List (String × Value)) (p : PyParam) (hp : p ∈ params) (e : PyErr)
    (he : resolveParam p kwargs = .error e) :
    ∃ e', bindParams params kwargs = .error e' := by
  induction params with
  | nil => cases hp
  | cons q rest ih =>
      unfold bindParams
      cases hq : resolveParam q kwargs with
      | error e' => exact ⟨e', by simp⟩
      | ok ob =>
          rcases List.mem_cons.mp hp with rfl | hp'
          · rw [hq] at he; cases he
          · rcases ih hp' with ⟨e', h'⟩
            cases ob with
            | none => exact ⟨e', by simpa using h'⟩
            | some b => exact ⟨e', by simp [h', Except.map]⟩

/-! ### Claim theorems -/

/-- C1.  Identity preservation: for every Context and every Step, the
pipeline-entry operation (`Step.__call__`, and the `>>` entry via
`__rrshift__`) returns the very same Context instance it was given — at the
reference level, the address handed back is the address passed in, for
every step and every heap of dict contents. -/
theorem c1_identity_preservation :
    ∀ (s : Step) (addr : Nat) (heap : Heap),
      (rrshiftRef addr heap s).1 = addr ∧ (s.callRef addr heap).1 = addr := by
  intro s addr heap
  rcases h : s.call (heap addr) with ⟨c', e, t⟩
  constructor
  · simp [rrshiftRef, Step.callRef, h]
  · simp [Step.callRef, h]

/-- C2.  Associativity of composition: for all Steps `a`, `b`, `d` and
every Context `c`, running `(a >> b) >> d` and `a >> (b >> d)` against `c`
produces the same final Context contents, the same outcome, and the same
left-to-right trace of constituent effects. -/
theorem c2_compose_assoc (a b d : Step) (c : Ctx) :
    (composeSteps (composeSteps a b) d).call c
      = (composeSteps a (composeSteps b d)).call c := by
  simp only [composeSteps, Step.rshift, Step.new, Step.call, runFn]
  rcases ha : runFn a.f c with ⟨c1, e1, t1⟩
  cases e1 with
  | error e => simp
  | ok v1 =>
      simp only [Except.map]
      rcases hb : runFn b.f c1 with ⟨c2, e2, t2⟩
      cases e2 with
      | error e => simp
      | ok v2 =>
          simp only [Except.map]
          rcases hd : runFn d.f c2 with ⟨c3, e3, t3⟩
          cases e3 with
          | error e => simp
          | ok v3 => simp

/-- C6.  Idempotent wrapping: re-coercing an already-Step right operand via
`Step(other)` does not double-apply its effect — calling the re-wrapped
step is exactly calling the original step, and a composite `a >> b` runs
`a` once and then `b` once (the trace is the concatenation of one run of
each). -/
theorem c6_no_double_apply :
    ∀ (a b : Step) (c : Ctx),
      (Step.new (.step b)).call c = b.call c ∧
      (composeSteps a b).call c =
        (match a.call c with
         | (c1, .error e, t1) => (c1, .error e, t1)
         | (c1, .ok _, t1) =>
             match b.call c1 with
             | (c2, e2, t2) => (c2, e2, t1 ++ t2)) := by
  intro a b c
  constructor
  · simp only [Step.new, Step.call, runFn]
    rcases hb : runFn b.f c with ⟨c', e, t⟩
    cases e <;> simp [Except.map]
  · simp only [composeSteps, Step.rshift, Step.new, Step.call, runFn]
    rcases ha : runFn a.f c with ⟨c1, e1, t1⟩
    cases e1 with
    | error e => simp [Except.map]
    | ok v1 =>
        simp only [Except.map]
        rcases hb : runFn b.f c1 with ⟨c2, e2, t2⟩
        cases e2 <;> simp [Except.map]

/-- C7.  Error propagation without rollback: if the left step of a
composite raises on `c`, the composite raises the same error, the right
step is never invoked (the trace is exactly the left step's trace), and the
mutations the left step performed before failing remain in place. -/
theorem c7_error_propagation (a b : Step) (c c1 : Ctx) (e : PyErr)
    (t1 : List String) (h : a.call c = (c1, .error e, t1)) :
    (composeSteps a b).call c = (c1, .error e, t1) := by
  rcases ha : runFn a.f c with ⟨c', r, t⟩
  simp only [Step.call, ha] at h
  cases r with
  | ok v => simp [Except.map] at h
  | error e' =>
      simp only [Except.map] at h
      obtain ⟨rfl, he, rfl⟩ : c' = c1 ∧ e' = e ∧ t = t1 := by
        refine ⟨congrArg Prod.fst h, ?_, ?_⟩
        · have := congrArg (fun x => x.2.1) h
          simpa using this
        · exact congrArg (fun x => x.2.2) h
      subst he
      simp [composeSteps, Step.rshift, Step.new, Step.call, runFn, ha, Except.map]

/-- Witness for C7: a composite whose left step writes `b := 1` and then
raises `boom` propagates the error, keeps the mutation, and never runs the
right step. -/
theorem c7_error_propagation_witness :
    (composeSteps (Step.new (.raw exBoom)) (Step.new (.raw exSetX))).call []
      = ([("b", Value.vInt 1)], .error "boom", ["boom"]) :=
  c7_error_propagation (Step.new (.raw exBoom)) (Step.new (.raw exSetX))
    [] [("b", Value.vInt 1)] "boom" ["boom"] rfl

/-- C9.  Return-value discarding on apply: `Step.__call__` performs exactly
one run of the wrapped callable (same mutated contents, same outcome, same
trace), discards the callable's return value (two leaf callables differing
only in return value give identical applications, each with exactly one
recorded invocation), and returns the very dict it was given (same address
at the reference level). -/
theorem c9_call_discards_return :
    ∀ (s : Step) (c : Ctx) (addr : Nat) (heap : Heap) (nm : String)
      (eff : Ctx → Ctx) (r1 r2 : Ctx → Value),
      s.call c = ((runFn s.f c).1,
        ((runFn s.f c).2.1).map (fun _ => ()), (runFn s.f c).2.2) ∧
      (s.callRef addr heap).1 = addr ∧
      (Step.new (.raw (PyProc.atomic nm eff (fun d => .ok (r1 d))))).call c
        = (Step.new (.raw (PyProc.atomic nm eff (fun d => .ok (r2 d))))).call c ∧
      (Step.new (.raw (PyProc.atomic nm eff (fun d => .ok (r1 d))))).call c
        = (eff c, .ok (), [nm]) := by
  intro s c addr heap nm eff r1 r2
  refine ⟨?_, ?_, ?_, ?_⟩
  · rcases h : runFn s.f c with ⟨c', r, t⟩
    simp [Step.call, h]
  · rcases h : s.call (heap addr) with ⟨c', e, t⟩
    simp [Step.callRef, h]
  · simp [Step.new, Step.call, runFn, PyProc.atomic, Except.map]
  · simp [Step.new, Step.call, runFn, PyProc.atomic, Except.map]

/-- C3.  Selective parameter binding: the kwargs passed to a wrapped
function are exactly its declared POSITIONAL_OR_KEYWORD / KEYWORD_ONLY
parameter names that are present as keys in the context, with their context
values; a declared parameter absent from the context is omitted from the
call; an omitted parameter with a default resolves to that default; an
omitted parameter without a default makes the call raise a
missing-argument error, which the gate propagates. -/
theorem c3_selective_binding :
    ∀ (func : PyFunc) (d : Ctx) (k : String) (v : Value) (p : PyParam)
      (kwargs : List (String × Value)) (dv : Value) (pred : Pred)
      (sra : Option String) (e : PyErr) (t : List String),
      ((k, v) ∈ selectKwargs func d ↔
        k ∈ neededParams func ∧ Ctx.lookup d k = some v) ∧
      (k ∈ neededParams func ↔
        ∃ q, q ∈ func.params ∧
          (q.kind = ParamKind.positionalOrKeyword ∨
            q.kind = ParamKind.keywordOnly) ∧ q.name = k) ∧
      (Ctx.lookup d p.name = none →
        Ctx.lookup (selectKwargs func d) p.name = none) ∧
      (¬(p.kind = ParamKind.varPositional ∨ p.kind = ParamKind.varKeyword) →
        Ctx.lookup kwargs p.name = none → p.default = some dv →
        resolveParam p kwargs = .ok (some (p.name, dv))) ∧
      (p ∈ func.params →
        ¬(p.kind = ParamKind.varPositional ∨ p.kind = ParamKind.varKeyword) →
        p.default = none → Ctx.lookup (selectKwargs func d) p.name = none →
        ∃ e', bindParams func.params (selectKwargs func d) = .error e') ∧
      (pred d = .ok true →
        callPyFunc func (selectKwargs func d) = (.error e, t) →
        (conditional_func pred sra func).call d = (d, .error e, t)) := by
  intro func d k v p kwargs dv pred sra e t
  refine ⟨mem_selectKwargs func d k v, mem_neededParams func k, ?_, ?_, ?_, ?_⟩
  · intro h
    exact lookup_filterMap_eq_none _ d _ h
  · intro hkind habs hdef
    simp [resolveParam, hkind, habs, hdef]
  · intro hp hkind hdef habs
    exact bindParams_error_of_mem _ _ p hp _
      (resolveParam_missing p _ hkind habs hdef)
  · intro hp hc
    simp [conditional_func, Step.call, runFn, sync_gate, hp, hc, Except.map]

/-- Witness for C3: `hyp(x, y)` on a context holding only `x` is called
with only `x`, and the call raises the missing-argument error for `y`,
which the step propagates unchanged. -/
theorem c3_selective_binding_witness :
    (conditional_func defaultPredicate (some "h") exHyp).call
        [("x", Value.vInt 3)]
      = ([("x", Value.vInt 3)], .error "missing a required argument: y", []) :=
  ((c3_selective_binding exHyp [("x", Value.vInt 3)] "x" (Value.vInt 3)
      ⟨"y", .positionalOrKeyword, none⟩ [] Value.vNone defaultPredicate
      (some "h") "missing a required argument: y" []).2.2.2.2.2) rfl rfl

/-- C4.  Gate suppression: when the predicate evaluates false on `c`, a
conditional step — whether built by `_condition`, `conditional_func`, or
`conditional_proc` — performs no invocation (empty trace) and leaves `c`
unchanged; in particular a value-producing step writes no output key. -/
theorem c4_gate_suppression :
    ∀ (pred : Pred) (c : Ctx) (func : PyFunc) (sra : Option String)
      (pf : PyProc), pred c = .ok false →
      (conditional_func pred sra func).call c = (c, .ok (), []) ∧
      (condGate pred pf).run c = (c, .ok Value.vNone, []) ∧
      (conditional_proc pred pf).call c = (c, .ok (), []) := by
  intro pred c func sra pf h
  refine ⟨?_, ?_, ?_⟩
  · simp [conditional_func, Step.call, runFn, sync_gate, h, Except.map]
  · simp [condGate, h]
  · simp [conditional_proc, Step.call, runFn, gatedProc, h, Except.map]

/-- Witness for C4: a predicate false on the empty context suppresses all
three kinds of gated step. -/
theorem c4_gate_suppression_witness :
    (conditional_func exPredGo (some "out") exConst).call [] = ([], .ok (), []) ∧
    (condGate exPredGo exSetX).run [] = ([], .ok Value.vNone, []) ∧
    (conditional_proc exPredGo exSetX).call [] = ([], .ok (), []) :=
  c4_gate_suppression exPredGo [] exConst (some "out") exSetX rfl

/-- C5 counterexample.  The claim says the return value is stored "for
every given key value, including edge-case key strings", but
`if store_return_as:` tests Python truthiness: with the empty-string key
given and the predicate true, the function runs (the value `42` is
produced, one invocation in the trace) yet nothing is stored — the
resulting context has no `""` key. -/
theorem c5_counterexample_empty_key :
    (conditional_func defaultPredicate (some "") exConst).call []
      = ([], .ok (), ["konst"]) ∧
    Ctx.lookup
      (((conditional_func defaultPredicate (some "") exConst).call []).1) ""
      = none :=
  ⟨rfl, rfl⟩

/-- C5 amended.  For every step built by `conditional_func` with a
*non-empty* `store_return_as` key, whenever the predicate is true and the
wrapped call returns (including a `None` return value), the return value is
assigned into the context under that key. -/
theorem c5_store_return_value (pred : Pred) (func : PyFunc) (c : Ctx)
    (k : String) (rv : Value) (t : List String) (hk : k ≠ "")
    (hp : pred c = .ok true)
    (hc : callPyFunc func (selectKwargs func c) = (.ok rv, t)) :
    (conditional_func pred (some k) func).call c
      = (Ctx.set c k rv, .ok (), t) := by
  simp [conditional_func, Step.call, runFn, sync_gate, hp, hc, hk, Except.map]

/-- Witness for C5 amended: a `None` return value is stored under the key
`"out"`. -/
theorem c5_store_return_value_witness :
    (conditional_func defaultPredicate (some "out") exNoneF).call []
      = (Ctx.set [] "out" Value.vNone, .ok (), ["nonef"]) :=
  c5_store_return_value defaultPredicate exNoneF [] "out" Value.vNone
    ["nonef"] (by decide) rfl rfl

/-- C8.  Gate pass-through: when the predicate is true on `c`, one
application of a `conditional_proc` step invokes the wrapped procedure
exactly once (the trace is exactly one invocation) and applies its
mutation; a `conditional_func` step whose argument binding succeeds calls
the wrapped function exactly once. -/
theorem c8_gate_pass_through :
    ∀ (pred : Pred) (c : Ctx) (nm : String) (eff : Ctx → Ctx)
      (ret : Ctx → Except PyErr Value) (func : PyFunc) (sra : Option String)
      (bound : List (String × Value)),
      pred c = .ok true →
      ((conditional_proc pred (PyProc.atomic nm eff ret)).call c).2.2 = [nm] ∧
      ((conditional_proc pred (PyProc.atomic nm eff ret)).call c).1 = eff c ∧
      (bindParams func.params (selectKwargs func c) = .ok bound →
        ((conditional_func pred sra func).call c).2.2 = [func.name]) := by
  intro pred c nm eff ret func sra bound h
  refine ⟨?_, ?_, ?_⟩
  · simp only [conditional_proc, Step.call, runFn, gatedProc, PyProc.atomic, h]
  · simp only [conditional_proc, Step.call, runFn, gatedProc, PyProc.atomic, h]
  · intro hb
    simp only [conditional_func, Step.call, runFn, sync_gate, callPyFunc, h, hb]
    cases hbody : func.body bound with
    | error e => simp
    | ok rv =>
        cases sra with
        | none => simp
        | some key => by_cases hk : key = "" <;> simp [hk]

/-- Witness for C8: a gated procedure writing `x := 3` runs exactly once,
and the gated `hyp(x, y)` function on `{x: 3, y: 4}` is called exactly
once. -/
theorem c8_gate_pass_through_witness :
    ((conditional_proc defaultPredicate exSetX).call []).2.2 = ["setx"] ∧
    ((conditional_func defaultPredicate (some "h") exHyp).call
        [("x", Value.vInt 3), ("y", Value.vInt 4)]).2.2 = ["hyp"] :=
  ⟨(c8_gate_pass_through defaultPredicate [] "setx"
      (fun d => Ctx.set d "x" (Value.vInt 3)) (fun _ => .ok Value.vNone)
      exHyp (some "h") [("x", Value.vInt 3), ("y", Value.vInt 4)] rfl).1,
   ((c8_gate_pass_through defaultPredicate
      [("x", Value.vInt 3), ("y", Value.vInt 4)] "setx"
      (fun d => Ctx.set d "x" (Value.vInt 3)) (fun _ => .ok Value.vNone)
      exHyp (some "h")
      [("x", Value.vInt 3), ("y", Value.vInt 4)] rfl).2.2) rfl⟩

/-- C10.  Always-true default predicate: `conditional_func` with its
default predicate gates nothing — on every context the trace of the step is
exactly the trace of calling the wrapped function on the selected kwargs,
and when the call returns a value and a non-empty key was given the value
is stored. -/
theorem c10_default_predicate_runs :
    ∀ (func : PyFunc) (sra : Option String) (c : Ctx) (k : String)
      (rv : Value) (t : List String),
      ((conditional_func defaultPredicate sra func).call c).2.2
        = (callPyFunc func (selectKwargs func c)).2 ∧
      (k ≠ "" → callPyFunc func (selectKwargs func c) = (.ok rv, t) →
        (conditional_func defaultPredicate (some k) func).call c
          = (Ctx.set c k rv, .ok (), t)) := by
  intro func sra c k rv t
  constructor
  · simp only [conditional_func, Step.call, runFn, sync_gate, defaultPredicate]
    rcases hc : callPyFunc func (selectKwargs func c) with ⟨r, tr⟩
    cases r with
    | error e => simp
    | ok v =>
        cases sra with
        | none => simp
        | some key => by_cases hk : key = "" <;> simp [hk]
  · intro hk hc
    simp [conditional_func, Step.call, runFn, sync_gate, defaultPredicate,
      hc, hk, Except.map]

/-- Witness for C10: with the default predicate the constant function runs
on the empty context and its value is stored. -/
theorem c10_default_predicate_runs_witness :
    (conditional_func defaultPredicate (some "out") exConst).call []
      = (Ctx.set [] "out" (Value.vInt 42), .ok (), ["konst"]) :=
  (c10_default_predicate_runs exConst (some "out") [] "out" (Value.vInt 42)
    ["konst"]).2 (by decide) rfl

end HoneyPipe
